import Mathlib

/-!
Shallow embedding of the market-data core of the crypto-data-bot repository
(files `exchange_api.py` and `data_analysis.py`), together with theorems
settling the specification claims about it.

Numeric values (prices, quantities, flows, percentages) are embedded as
rationals; timestamps as rationals (seconds) or integers (epoch
milliseconds), matching the arithmetic the source performs on them.
Fallible operations return `Option`.
-/

namespace CryptoBot

/-- Canonical trade side of the normalized `Trade` record. -/
inductive Side
  | buy
  | sell
deriving DecidableEq, Repr

/-- Invert a side (buy ↔ sell). -/
def Side.invert : Side → Side
  | .buy => .sell
  | .sell => .buy

/-- Canonical normalized trade record produced by `get_recent_trades`
(`exchange_api.py`): id, price, amount, value = price × amount, side,
epoch-millisecond timestamp. -/
structure Trade where
  id : Nat
  price : ℚ
  amount : ℚ
  value : ℚ
  side : Side
  timestamp : ℤ
deriving DecidableEq, Repr

/-- Raw Binance trade payload fields used by `get_recent_trades`
(`exchange_api.py` lines 219-228). -/
structure BinanceRawTrade where
  id : Nat
  price : ℚ
  qty : ℚ
  isBuyerMaker : Bool
  time : ℤ
deriving DecidableEq, Repr

/-- Raw OKX trade payload fields used by `get_recent_trades`
(`exchange_api.py` lines 229-238). The source comments that the raw
`side` field is the taker direction. -/
structure OkxRawTrade where
  tradeId : Nat
  px : ℚ
  sz : ℚ
  side : String
  ts : ℤ
deriving DecidableEq, Repr

/-- Raw Bybit trade payload fields used by `get_recent_trades`
(`exchange_api.py` lines 239-248). -/
structure BybitRawTrade where
  i : Nat
  p : ℚ
  v : ℚ
  S : String
  T : ℤ
deriving DecidableEq, Repr

/-- Binance branch of `get_recent_trades` (`exchange_api.py` lines 219-228):
`"side": "buy" if trade["isBuyerMaker"] else "sell"`. -/
def normalizeBinanceTrade (r : BinanceRawTrade) : Trade :=
  { id := r.id
    price := r.price
    amount := r.qty
    value := r.price * r.qty
    side := if r.isBuyerMaker then Side.buy else Side.sell
    timestamp := r.time }

/-- OKX branch of `get_recent_trades` (`exchange_api.py` lines 229-238):
`"side": "sell" if trade["side"] == "buy" else "buy"` — the raw side value
is inverted. -/
def normalizeOkxTrade (r : OkxRawTrade) : Trade :=
  { id := r.tradeId
    price := r.px
    amount := r.sz
    value := r.px * r.sz
    side := if r.side = "buy" then Side.sell else Side.buy
    timestamp := r.ts }

/-- Bybit branch of `get_recent_trades` (`exchange_api.py` lines 239-248):
`"side": "buy" if trade["S"] == "Buy" else "sell"`. -/
def normalizeBybitTrade (r : BybitRawTrade) : Trade :=
  { id := r.i
    price := r.p
    amount := r.v
    value := r.p * r.v
    side := if r.S = "Buy" then Side.buy else Side.sell
    timestamp := r.T }

/-- The taker side of a raw OKX trade, per the source comment on
`exchange_api.py` line 236 ("OKX's side is the taker's direction"): the raw
`side` field itself denotes the taker direction. -/
def okxTakerSide (r : OkxRawTrade) : Side :=
  if r.side = "buy" then Side.buy else Side.sell

/-- Canonical normalized price record produced by `get_price`
(`exchange_api.py`): symbol, last price, 24h change in percent, 24h
volume/high/low. -/
structure PriceQuote where
  symbol : String
  price : ℚ
  change_24h : ℚ
  volume_24h : ℚ
  high_24h : ℚ
  low_24h : ℚ
deriving DecidableEq, Repr

/-- Raw Binance 24h-ticker payload fields used by `get_price`
(`exchange_api.py` lines 84-92). -/
structure BinanceTicker where
  lastPrice : ℚ
  priceChangePercent : ℚ
  volume : ℚ
  highPrice : ℚ
  lowPrice : ℚ
deriving DecidableEq, Repr

/-- Raw OKX ticker payload fields used by `get_price`
(`exchange_api.py` lines 93-102). -/
structure OkxTicker where
  last : ℚ
  change24h : ℚ
  vol24h : ℚ
  high24h : ℚ
  low24h : ℚ
deriving DecidableEq, Repr

/-- Raw Bybit ticker payload fields used by `get_price`
(`exchange_api.py` lines 103-112). -/
structure BybitTicker where
  lastPrice : ℚ
  price24hPcnt : ℚ
  volume24h : ℚ
  highPrice24h : ℚ
  lowPrice24h : ℚ
deriving DecidableEq, Repr

/-- Binance branch of `get_price` response parsing (`exchange_api.py`
lines 84-92): `priceChangePercent` is already a percentage and is stored
unchanged. -/
def parseBinancePrice (symbol : String) (r : BinanceTicker) : PriceQuote :=
  { symbol
    price := r.lastPrice
    change_24h := r.priceChangePercent
    volume_24h := r.volume
    high_24h := r.highPrice
    low_24h := r.lowPrice }

/-- OKX branch of `get_price` response parsing (`exchange_api.py`
lines 93-102): `change24h` is a fraction of one and is multiplied by 100. -/
def parseOkxPrice (symbol : String) (r : OkxTicker) : PriceQuote :=
  { symbol
    price := r.last
    change_24h := r.change24h * 100
    volume_24h := r.vol24h
    high_24h := r.high24h
    low_24h := r.low24h }

/-- Bybit branch of `get_price` response parsing (`exchange_api.py`
lines 103-112): `price24hPcnt` is a fraction of one and is multiplied
by 100. -/
def parseBybitPrice (symbol : String) (r : BybitTicker) : PriceQuote :=
  { symbol
    price := r.lastPrice
    change_24h := r.price24hPcnt * 100
    volume_24h := r.volume24h
    high_24h := r.highPrice24h
    low_24h := r.lowPrice24h }

/-- Cache TTL in seconds (`CACHE_EXPIRY = 60` in `exchange_api.py`). -/
def CACHE_EXPIRY : ℚ := 60

/-- One entry of the module-level `CACHE` dictionary: a capture timestamp
(`datetime.now()`, modelled in seconds) and the cached payload. -/
structure CacheEntry where
  timestamp : ℚ
  data : PriceQuote
deriving DecidableEq, Repr

/-- The `CACHE` dictionary for price entries, keyed by the composed string
key `price_{exchange}_{symbol}`; modelled as an association list where the
first binding of a key is its current value. -/
abbrev Cache := List (String × CacheEntry)

/-- Dictionary lookup `CACHE[cache_key]` (with the `cache_key in CACHE`
guard): the current binding of the key, if any. -/
def cacheLookup (c : Cache) (key : String) : Option CacheEntry :=
  (c.find? (fun p => p.1 = key)).map (fun p => p.2)

/-- Dictionary assignment `CACHE[cache_key] = entry`: the new binding
replaces any existing binding of the key. -/
def cachePut (c : Cache) (key : String) (e : CacheEntry) : Cache :=
  (key, e) :: c.filter (fun p => ¬ p.1 = key)

/-- The cache key `f"price_{exchange}_{symbol}"` of `get_price`
(`exchange_api.py` line 55). -/
def priceCacheKey (exchange symbol : String) : String :=
  "price_" ++ exchange ++ "_" ++ symbol

/-- One invocation of `get_price` (`exchange_api.py` lines 52-120),
abstracted over the network: `now` is the current time in seconds and
`fetch` is the quote the network call would parse to (`none` when the
request fails and the function raises). Returns the result (`none` models
the raise), the cache after the call, and whether a network call was
issued. -/
def get_price_step (cache : Cache) (now : ℚ) (key : String)
    (fetch : Option PriceQuote) : Option PriceQuote × Cache × Bool :=
  match cacheLookup cache key with
  | some e =>
      if now - e.timestamp < CACHE_EXPIRY then
        (some e.data, cache, false)
      else
        match fetch with
        | none => (none, cache, true)
        | some q => (some q, cachePut cache key ⟨now, q⟩, true)
  | none =>
      match fetch with
      | none => (none, cache, true)
      | some q => (some q, cachePut cache key ⟨now, q⟩, true)

/-- Result record of `get_aggregated_price` (`exchange_api.py`
lines 259-280): average price plus per-exchange prices of the successful
fetches. -/
structure AggregatedPrice where
  symbol : String
  price : ℚ
  exchange_prices : List (String × ℚ)
deriving DecidableEq, Repr

/-- `get_aggregated_price` (`exchange_api.py` lines 259-280), abstracted
over the network: `exchanges` is `EXCHANGES.keys()` in order and `results`
the positionally matching outcomes of the gathered `get_price` tasks, with
`none` modelling a raised exception. Failures are filtered out; if no
result is valid the function raises (`none`), otherwise it returns the
arithmetic mean of the valid prices and the exchange-to-price map from
`zip(EXCHANGES.keys(), results)` restricted to valid results. -/
def get_aggregated_price (symbol : String) (exchanges : List String)
    (results : List (Option PriceQuote)) : Option AggregatedPrice :=
  let valid_results := results.filterMap id
  if valid_results.isEmpty then
    none
  else
    some
      { symbol
        price := ((valid_results.map PriceQuote.price).sum) / valid_results.length
        exchange_prices :=
          (exchanges.zip results).filterMap
            (fun p => p.2.map (fun q => (p.1, q.price))) }

/-- Large-order threshold in quote-currency units
(`LARGE_ORDER_THRESHOLD = 100000` in `data_analysis.py`). -/
def LARGE_ORDER_THRESHOLD : ℚ := 100000

/-- The four rolling windows of `analyze_fund_flow` (`data_analysis.py`
lines 25-30). -/
inductive Period
  | p15m
  | p1h
  | p4h
  | p24h
deriving DecidableEq, Repr

/-- Length of each rolling window in seconds (the `timedelta` subtracted
from `now` in `data_analysis.py` lines 25-30). -/
def Period.seconds : Period → ℚ
  | .p15m => 900
  | .p1h => 3600
  | .p4h => 14400
  | .p24h => 86400

/-- The two trader classes of `analyze_fund_flow`. -/
inductive TraderClass
  | institutional
  | retail
deriving DecidableEq, Repr

/-- Trade classification (`data_analysis.py` lines 45 and 51):
institutional when value ≥ threshold, retail otherwise. -/
def tradeClass (t : Trade) : TraderClass :=
  if t.value ≥ LARGE_ORDER_THRESHOLD then TraderClass.institutional
  else TraderClass.retail

/-- Trade time in seconds as computed by
`datetime.fromtimestamp(trade["timestamp"] / 1000)`
(`data_analysis.py` line 43). -/
def tradeTimeSec (t : Trade) : ℚ :=
  (t.timestamp : ℚ) / 1000

/-- Window membership test of `data_analysis.py` line 49:
`trade_time >= period_start` with `period_start = now - period`. -/
def inWindow (now : ℚ) (t : Trade) (p : Period) : Bool :=
  tradeTimeSec t ≥ now - p.seconds

/-- One iteration of the accumulation loop of `analyze_fund_flow`
(`data_analysis.py` lines 42-57): the trade value is added, for every
window containing the trade, to the inflow (buy side) or outflow
(otherwise) of the trade's class. Accumulator: (inflow, outflow) per
(class, window). -/
def flowStep (now : ℚ) (acc : TraderClass → Period → ℚ × ℚ) (t : Trade) :
    TraderClass → Period → ℚ × ℚ :=
  fun c p =>
    if inWindow now t p ∧ tradeClass t = c then
      if t.side = Side.buy then ((acc c p).1 + t.value, (acc c p).2)
      else ((acc c p).1, (acc c p).2 + t.value)
    else acc c p

/-- The full accumulation loop of `analyze_fund_flow` over the trade list,
starting from the zero-initialized results of `data_analysis.py`
lines 33-39. -/
def flowTotals (now : ℚ) (trades : List Trade) :
    TraderClass → Period → ℚ × ℚ :=
  trades.foldl (flowStep now) (fun _ _ => (0, 0))

/-- One {inflow, outflow, net_flow} triple of a FlowReport. -/
structure FlowCell where
  inflow : ℚ
  outflow : ℚ
  net_flow : ℚ
deriving DecidableEq, Repr

/-- Dominant-direction labels of `analyze_fund_flow` (`data_analysis.py`
lines 70-79). -/
inductive Direction
  | strongBullish
  | instBullRetailBear
  | instBearRetailBull
  | strongBearish
  | neutral
deriving DecidableEq, Repr

/-- The dominant-direction 5-way lookup of `analyze_fund_flow`
(`data_analysis.py` lines 70-79), applied to the 24h institutional and
retail net flows. -/
def dominant_direction (inst retail : ℚ) : Direction :=
  if inst > 0 ∧ retail > 0 then Direction.strongBullish
  else if inst > 0 ∧ retail < 0 then Direction.instBullRetailBear
  else if inst < 0 ∧ retail > 0 then Direction.instBearRetailBull
  else if inst < 0 ∧ retail < 0 then Direction.strongBearish
  else Direction.neutral

/-- Result record of `analyze_fund_flow` (`data_analysis.py` lines 13-83). -/
structure FlowReport where
  symbol : String
  current_price : ℚ
  flows : TraderClass → Period → FlowCell
  dominant_direction : Direction

/-- `analyze_fund_flow` (`data_analysis.py` lines 13-83), abstracted over
the network: `now` is the current time in seconds, `trades` the fetched
recent trades and `current_price` the fetched price. Accumulates each
trade into every window containing it, computes net flow = inflow −
outflow per (class, window), and derives the dominant direction from the
24h institutional and retail net flows. -/
def analyze_fund_flow (symbol : String) (current_price : ℚ) (now : ℚ)
    (trades : List Trade) : FlowReport :=
  let totals := flowTotals now trades
  let cell := fun c p =>
    FlowCell.mk (totals c p).1 (totals c p).2 ((totals c p).1 - (totals c p).2)
  { symbol
    current_price
    flows := cell
    dominant_direction :=
      dominant_direction
        (cell TraderClass.institutional Period.p24h).net_flow
        (cell TraderClass.retail Period.p24h).net_flow }

/-- Result record of `analyze_whale_activity` (`data_analysis.py`
lines 89-123). -/
structure WhaleReport where
  symbol : String
  buy_count : ℕ
  sell_count : ℕ
  buy_value : ℚ
  sell_value : ℚ
  net_value : ℚ
  large_trade_percentage : ℚ
deriving DecidableEq, Repr

/-- `analyze_whale_activity` (`data_analysis.py` lines 89-123), abstracted
over the network: filters large trades (value ≥ threshold), counts and
sums them per side, and computes the large-trade percentage, guarding the
division by the total trade count. -/
def analyze_whale_activity (symbol : String) (trades : List Trade) :
    WhaleReport :=
  let large_trades := trades.filter (fun t => t.value ≥ LARGE_ORDER_THRESHOLD)
  let buy_trades := large_trades.filter (fun t => t.side = Side.buy)
  let sell_trades := large_trades.filter (fun t => t.side = Side.sell)
  let buy_value := (buy_trades.map Trade.value).sum
  let sell_value := (sell_trades.map Trade.value).sum
  { symbol
    buy_count := buy_trades.length
    sell_count := sell_trades.length
    buy_value
    sell_value
    net_value := buy_value - sell_value
    large_trade_percentage :=
      if trades.length > 0 then
        ((large_trades.length : ℚ) / (trades.length : ℚ)) * 100
      else 0 }

/-- Pressure labels of `analyze_order_book_imbalance` (`data_analysis.py`
lines 149-158). -/
inductive Pressure
  | strongBuyPressure
  | buyPressure
  | strongSellPressure
  | sellPressure
  | balanced
deriving DecidableEq, Repr

/-- Result record of `analyze_order_book_imbalance` (`data_analysis.py`
lines 129-169). -/
structure ImbalanceReport where
  symbol : String
  bid_volume : ℚ
  ask_volume : ℚ
  bid_percentage : ℚ
  ask_percentage : ℚ
  imbalance : ℚ
  pressure : Pressure
deriving DecidableEq, Repr

/-- `analyze_order_book_imbalance` (`data_analysis.py` lines 129-169),
abstracted over the network: sums the bid and ask level quantities of the
fetched order book (lists of (price, quantity) pairs), computes each
side's percentage of combined volume (50/50 when the guard
`total_volume > 0` fails), the imbalance bid% − ask%, and the pressure
label from fixed thresholds. -/
def analyze_order_book_imbalance (symbol : String)
    (bids asks : List (ℚ × ℚ)) : ImbalanceReport :=
  let bid_volume := (bids.map Prod.snd).sum
  let ask_volume := (asks.map Prod.snd).sum
  let total_volume := bid_volume + ask_volume
  let bid_percentage :=
    if total_volume > 0 then bid_volume / total_volume * 100 else 50
  let ask_percentage :=
    if total_volume > 0 then ask_volume / total_volume * 100 else 50
  let imbalance := bid_percentage - ask_percentage
  { symbol
    bid_volume
    ask_volume
    bid_percentage
    ask_percentage
    imbalance
    pressure :=
      if imbalance > 20 then Pressure.strongBuyPressure
      else if imbalance > 10 then Pressure.buyPressure
      else if imbalance < -20 then Pressure.strongSellPressure
      else if imbalance < -10 then Pressure.sellPressure
      else Pressure.balanced }

/-- Market-prediction labels of `comprehensive_analysis`
(`data_analysis.py` lines 215-224). -/
inductive Prediction
  | strongBullish
  | bullish
  | strongBearish
  | bearish
  | neutral
deriving DecidableEq, Repr

/-- The signal-score computation of `comprehensive_analysis`
(`data_analysis.py` lines 194-212): sequential if/elif updates of the
(bullish, bearish) counters from the 24h institutional net flow, the 24h
retail net flow, the whale net value and the order-book imbalance. -/
def signal_scores (inst_flow retail_flow whale_net book_imbalance : ℚ) :
    ℕ × ℕ :=
  let s : ℕ × ℕ := (0, 0)
  let s := if inst_flow > 0 then (s.1 + 2, s.2)
    else if inst_flow < 0 then (s.1, s.2 + 2) else s
  let s := if retail_flow < 0 then (s.1 + 1, s.2)
    else if retail_flow > 0 then (s.1, s.2 + 1) else s
  let s := if whale_net > 0 then (s.1 + 2, s.2)
    else if whale_net < 0 then (s.1, s.2 + 2) else s
  let s := if book_imbalance > 10 then (s.1 + 1, s.2)
    else if book_imbalance < -10 then (s.1, s.2 + 1) else s
  s

/-- The market-prediction cascade of `comprehensive_analysis`
(`data_analysis.py` lines 215-224). -/
def market_prediction (bullish bearish : ℕ) : Prediction :=
  if (bullish : ℤ) - (bearish : ℤ) ≥ 3 then Prediction.strongBullish
  else if (bullish : ℤ) - (bearish : ℤ) ≥ 1 then Prediction.bullish
  else if (bearish : ℤ) - (bullish : ℤ) ≥ 3 then Prediction.strongBearish
  else if (bearish : ℤ) - (bullish : ℤ) ≥ 1 then Prediction.bearish
  else Prediction.neutral

/-! ## Theorems settling the claims -/

/-- C1 (counterexample): the claim that the normalized side always denotes
the taker side fails on the OKX branch. For the concrete raw OKX trade
with side "buy" — whose taker side is buy, per the source's own comment —
`get_recent_trades` normalizes the side to sell, the opposite of the taker
direction. -/
theorem okx_side_not_taker_cex :
    (normalizeOkxTrade ⟨1, 100, 2, "buy", 0⟩).side = Side.sell ∧
    okxTakerSide ⟨1, 100, 2, "buy", 0⟩ = Side.buy ∧
    ¬ (normalizeOkxTrade ⟨1, 100, 2, "buy", 0⟩).side =
        okxTakerSide ⟨1, 100, 2, "buy", 0⟩ := by
  refine ⟨rfl, rfl, ?_⟩
  decide

/-- C1 (amended): exactly one exchange's reported side field (OKX's) is
inverted buy ↔ sell during normalization — Binance's isBuyerMaker flag is
mapped True → buy / False → sell and Bybit's S field is mapped
"Buy" → buy / otherwise sell, with no inversion — and consequently, since
the source documents OKX's raw side field as the taker's direction, the
normalized side of every OKX trade is the opposite of its taker side. -/
theorem trade_side_normalization_spec :
    (∀ r : OkxRawTrade,
      (normalizeOkxTrade r).side = Side.invert (okxTakerSide r)) ∧
    (∀ r : BinanceRawTrade,
      (normalizeBinanceTrade r).side =
        if r.isBuyerMaker then Side.buy else Side.sell) ∧
    (∀ r : BybitRawTrade,
      (normalizeBybitTrade r).side =
        if r.S = "Buy" then Side.buy else Side.sell) := by
  refine ⟨fun r => ?_, fun r => rfl, fun r => rfl⟩
  by_cases h : r.side = "buy" <;>
    simp [normalizeOkxTrade, okxTakerSide, Side.invert, h]

/-- C8: normalizing a raw price payload preserves the 24h-change
percentage semantics: Binance's priceChangePercent is stored unchanged,
while OKX's change24h and Bybit's price24hPcnt (fractions of one) are
multiplied by 100; in particular the stored change keeps the raw value's
sign, and its magnitude is the raw magnitude scaled by 100 for the
fraction-of-one sources and unchanged for Binance. -/
theorem change_24h_normalization_spec :
    ∀ (sym : String) (rb : BinanceTicker) (ro : OkxTicker) (ry : BybitTicker),
      (parseBinancePrice sym rb).change_24h = rb.priceChangePercent ∧
      (parseOkxPrice sym ro).change_24h = ro.change24h * 100 ∧
      (parseBybitPrice sym ry).change_24h = ry.price24hPcnt * 100 ∧
      ((parseOkxPrice sym ro).change_24h > 0 ↔ ro.change24h > 0) ∧
      ((parseOkxPrice sym ro).change_24h < 0 ↔ ro.change24h < 0) ∧
      |(parseOkxPrice sym ro).change_24h| = |ro.change24h| * 100 ∧
      ((parseBybitPrice sym ry).change_24h > 0 ↔ ry.price24hPcnt > 0) ∧
      ((parseBybitPrice sym ry).change_24h < 0 ↔ ry.price24hPcnt < 0) ∧
      |(parseBybitPrice sym ry).change_24h| = |ry.price24hPcnt| * 100 := by
  intro sym rb ro ry
  refine ⟨rfl, rfl, rfl, ?_, ?_, ?_, ?_, ?_, ?_⟩ <;>
    simp only [parseOkxPrice, parseBybitPrice]
  · constructor <;> intro h <;> nlinarith
  · constructor <;> intro h <;> nlinarith
  · rw [abs_mul]
    norm_num
  · constructor <;> intro h <;> nlinarith
  · constructor <;> intro h <;> nlinarith
  · rw [abs_mul]
    norm_num

set_option maxHeartbeats 1600000 in
/-- C3: the composite signal scores follow the fixed weights
(institutional flow ±2, contrarian retail flow ±1, whale net ±2,
order-book imbalance beyond ±10 ±1), the prediction label follows the
thresholds on bullish − bearish (≥ 3 strong bullish, ≥ 1 bullish, ≤ −3
strong bearish, ≤ −1 bearish, else neutral), and the concrete inputs
(+500000, −200000, +300000, +15) score bullish 6 / bearish 0 with
prediction strong bullish. -/
theorem comprehensive_signals_spec :
    (∀ i r w m : ℚ,
      signal_scores i r w m =
        ((if i > 0 then 2 else 0) + (if r < 0 then 1 else 0) +
          (if w > 0 then 2 else 0) + (if m > 10 then 1 else 0),
         (if i < 0 then 2 else 0) + (if r > 0 then 1 else 0) +
          (if w < 0 then 2 else 0) + (if m < -10 then 1 else 0))) ∧
    (∀ b s : ℕ,
      (market_prediction b s = Prediction.strongBullish ↔
        (b : ℤ) - (s : ℤ) ≥ 3) ∧
      (market_prediction b s = Prediction.bullish ↔
        1 ≤ (b : ℤ) - (s : ℤ) ∧ (b : ℤ) - (s : ℤ) < 3) ∧
      (market_prediction b s = Prediction.strongBearish ↔
        (b : ℤ) - (s : ℤ) ≤ -3) ∧
      (market_prediction b s = Prediction.bearish ↔
        -3 < (b : ℤ) - (s : ℤ) ∧ (b : ℤ) - (s : ℤ) ≤ -1) ∧
      (market_prediction b s = Prediction.neutral ↔
        (b : ℤ) - (s : ℤ) = 0)) ∧
    signal_scores 500000 (-200000) 300000 15 = (6, 0) ∧
    market_prediction 6 0 = Prediction.strongBullish := by
  refine ⟨fun i r w m => ?_, fun b s => ?_, by decide, by decide⟩
  · simp only [signal_scores]
    split_ifs <;> first | rfl | (exfalso; linarith)
  · simp only [market_prediction]
    refine ⟨?_, ?_, ?_, ?_, ?_⟩ <;> split_ifs <;>
      simp_all <;> omega

/-- C5: the FlowReport's dominant-direction label is the fixed 5-way
lookup applied to the 24h institutional and retail net flows: both
positive gives strong bullish, institutional positive with retail
negative gives the institutional-bullish/retail-bearish label, the
symmetric case gives its mirror, both negative gives strong bearish, and
a zero on either side gives neutral. -/
theorem dominant_direction_spec :
    ∀ (sym : String) (price now : ℚ) (trades : List Trade) (i r : ℚ),
      ((analyze_fund_flow sym price now trades).dominant_direction =
        dominant_direction
          (((analyze_fund_flow sym price now trades).flows
              TraderClass.institutional Period.p24h).net_flow)
          (((analyze_fund_flow sym price now trades).flows
              TraderClass.retail Period.p24h).net_flow)) ∧
      (i > 0 → r > 0 →
        dominant_direction i r = Direction.strongBullish) ∧
      (i > 0 → r < 0 →
        dominant_direction i r = Direction.instBullRetailBear) ∧
      (i < 0 → r > 0 →
        dominant_direction i r = Direction.instBearRetailBull) ∧
      (i < 0 → r < 0 →
        dominant_direction i r = Direction.strongBearish) ∧
      (i = 0 ∨ r = 0 →
        dominant_direction i r = Direction.neutral) := by
  intro sym price now trades i r
  refine ⟨rfl, fun h1 h2 => ?_, fun h1 h2 => ?_, fun h1 h2 => ?_,
    fun h1 h2 => ?_, fun h1 => ?_⟩
  · simp [dominant_direction, h1, h2]
  · have hr : ¬ r > 0 := by linarith
    simp [dominant_direction, h1, h2, hr]
  · have hi : ¬ i > 0 := by linarith
    simp [dominant_direction, h1, h2, hi]
  · have hi : ¬ i > 0 := by linarith
    have hr : ¬ r > 0 := by linarith
    simp [dominant_direction, h1, h2, hi, hr]
  · rcases h1 with h1 | h1 <;> subst h1 <;> simp [dominant_direction]

/-- C5 witness: the 5-way lookup evaluated at concrete sign patterns. -/
theorem dominant_direction_spec_witness :
    dominant_direction 1 1 = Direction.strongBullish ∧
    dominant_direction 1 (-1) = Direction.instBullRetailBear ∧
    dominant_direction (-1) 1 = Direction.instBearRetailBull ∧
    dominant_direction (-1) (-1) = Direction.strongBearish ∧
    dominant_direction 0 1 = Direction.neutral := by
  refine
    ⟨(dominant_direction_spec "BTC" 0 0 [] 1 1).2.1
        (by norm_num) (by norm_num),
      (dominant_direction_spec "BTC" 0 0 [] 1 (-1)).2.2.1
        (by norm_num) (by norm_num),
      (dominant_direction_spec "BTC" 0 0 [] (-1) 1).2.2.2.1
        (by norm_num) (by norm_num),
      (dominant_direction_spec "BTC" 0 0 [] (-1) (-1)).2.2.2.2.1
        (by norm_num) (by norm_num),
      (dominant_direction_spec "BTC" 0 0 [] 0 1).2.2.2.2.2 (Or.inl rfl)⟩

/-- C6: the whale large-trade percentage is 0 on the empty trade list, is
always within [0, 100], and satisfies percentage × total count =
large-trade count × 100 (so it equals the large-trade share times 100
whenever the total count is positive, with the division guarded). -/
theorem whale_percentage_spec :
    ∀ (sym : String) (trades : List Trade),
      (analyze_whale_activity sym []).large_trade_percentage = 0 ∧
      0 ≤ (analyze_whale_activity sym trades).large_trade_percentage ∧
      (analyze_whale_activity sym trades).large_trade_percentage ≤ 100 ∧
      (analyze_whale_activity sym trades).large_trade_percentage *
          (trades.length : ℚ) =
        ((trades.filter
            (fun t => t.value ≥ LARGE_ORDER_THRESHOLD)).length : ℚ) * 100 := by
  intro sym trades
  have hle :
      ((trades.filter
          (fun t => t.value ≥ LARGE_ORDER_THRESHOLD)).length : ℚ) ≤
        (trades.length : ℚ) := by
    exact_mod_cast List.length_filter_le _ _
  by_cases h : trades.length > 0
  · have hpos : (0 : ℚ) < (trades.length : ℚ) := by exact_mod_cast h
    have hval : (analyze_whale_activity sym trades).large_trade_percentage =
        ((trades.filter
            (fun t => t.value ≥ LARGE_ORDER_THRESHOLD)).length : ℚ) /
          (trades.length : ℚ) * 100 := by
      simp only [analyze_whale_activity, if_pos h]
    refine ⟨rfl, ?_, ?_, ?_⟩
    · rw [hval]
      have hnum : (0 : ℚ) ≤
          ((trades.filter
              (fun t => t.value ≥ LARGE_ORDER_THRESHOLD)).length : ℚ) := by
        positivity
      have := div_nonneg hnum (le_of_lt hpos)
      linarith
    · rw [hval]
      have hdiv :
          ((trades.filter
              (fun t => t.value ≥ LARGE_ORDER_THRESHOLD)).length : ℚ) /
            (trades.length : ℚ) ≤ 1 := (div_le_one hpos).mpr hle
      linarith
    · rw [hval]
      field_simp
  · have h0 : trades.length = 0 := Nat.eq_zero_of_not_pos h
    have hnil : trades = [] := List.length_eq_zero.mp h0
    subst hnil
    have hval0 :
        (analyze_whale_activity sym ([] : List Trade)).large_trade_percentage
          = 0 := by
      simp [analyze_whale_activity]
    exact ⟨hval0, hval0.symm.le, by rw [hval0]; norm_num,
      by simp [analyze_whale_activity]⟩

/-- Helper: the bid and ask percentages of an ImbalanceReport always sum
to 100 exactly, in both the guarded-division branch and the 50/50 default
branch. -/
lemma imbalance_percentage_sum (sym : String) (bids asks : List (ℚ × ℚ)) :
    (analyze_order_book_imbalance sym bids asks).bid_percentage +
      (analyze_order_book_imbalance sym bids asks).ask_percentage = 100 := by
  simp only [analyze_order_book_imbalance]
  by_cases h : (bids.map Prod.snd).sum + (asks.map Prod.snd).sum > 0
  · rw [if_pos h, if_pos h]
    have hne : (bids.map Prod.snd).sum + (asks.map Prod.snd).sum ≠ 0 :=
      ne_of_gt h
    field_simp
    ring
  · rw [if_neg h, if_neg h]
    norm_num

/-- Helper: the pressure label is the fixed threshold cascade applied to
the imbalance field. -/
lemma pressure_eq (sym : String) (bids asks : List (ℚ × ℚ)) :
    (analyze_order_book_imbalance sym bids asks).pressure =
      (if (analyze_order_book_imbalance sym bids asks).imbalance > 20 then
        Pressure.strongBuyPressure
      else if (analyze_order_book_imbalance sym bids asks).imbalance > 10 then
        Pressure.buyPressure
      else if (analyze_order_book_imbalance sym bids asks).imbalance < -20 then
        Pressure.strongSellPressure
      else if (analyze_order_book_imbalance sym bids asks).imbalance < -10 then
        Pressure.sellPressure
      else Pressure.balanced) := by
  simp only [analyze_order_book_imbalance]

/-- Helper: the imbalance field equals bid percentage minus ask
percentage. -/
lemma imbalance_eq_diff (sym : String) (bids asks : List (ℚ × ℚ)) :
    (analyze_order_book_imbalance sym bids asks).imbalance =
      (analyze_order_book_imbalance sym bids asks).bid_percentage -
        (analyze_order_book_imbalance sym bids asks).ask_percentage := by
  simp only [analyze_order_book_imbalance]

/-- Helper: with nonnegative level quantities the bid percentage lies in
[0, 100]. -/
lemma bid_percentage_bounds (sym : String) (bids asks : List (ℚ × ℚ))
    (hb : ∀ q ∈ bids.map Prod.snd, 0 ≤ q)
    (ha : ∀ q ∈ asks.map Prod.snd, 0 ≤ q) :
    0 ≤ (analyze_order_book_imbalance sym bids asks).bid_percentage ∧
      (analyze_order_book_imbalance sym bids asks).bid_percentage ≤ 100 := by
  have hbv : 0 ≤ (bids.map Prod.snd).sum := List.sum_nonneg hb
  have hav : 0 ≤ (asks.map Prod.snd).sum := List.sum_nonneg ha
  simp only [analyze_order_book_imbalance]
  by_cases h : (bids.map Prod.snd).sum + (asks.map Prod.snd).sum > 0
  · rw [if_pos h]
    constructor
    · have := div_nonneg hbv (le_of_lt h)
      linarith
    · have hle : (bids.map Prod.snd).sum ≤
          (bids.map Prod.snd).sum + (asks.map Prod.snd).sum := by linarith
      have hdiv : (bids.map Prod.snd).sum /
          ((bids.map Prod.snd).sum + (asks.map Prod.snd).sum) ≤ 1 :=
        (div_le_one h).mpr hle
      linarith
  · rw [if_neg h]
    norm_num

/-- C10: in every ImbalanceReport the bid and ask percentages sum to 100
exactly — in the zero-volume branch as 50 + 50 and in the positive-volume
branch as the two shares of the same total — so the imbalance always
equals 2 × bid percentage − 100. -/
theorem imbalance_sum_linear_spec :
    ∀ (sym : String) (bids asks : List (ℚ × ℚ)),
      (analyze_order_book_imbalance sym bids asks).bid_percentage +
        (analyze_order_book_imbalance sym bids asks).ask_percentage = 100 ∧
      (analyze_order_book_imbalance sym bids asks).imbalance =
        2 * (analyze_order_book_imbalance sym bids asks).bid_percentage -
          100 := by
  intro sym bids asks
  have hsum := imbalance_percentage_sum sym bids asks
  have hdiff := imbalance_eq_diff sym bids asks
  exact ⟨hsum, by linarith⟩

/-- C7: the order-book imbalance report gives each side its share of
combined volume times 100 with a 50/50 default when combined volume is 0
(hence imbalance 0 there); under nonnegative level quantities the
imbalance lies in [−100, 100]; and the pressure label follows the fixed
thresholds (> 20 strong buy, > 10 buy, < −20 strong sell, < −10 sell,
otherwise balanced). -/
theorem order_book_imbalance_spec :
    ∀ (sym : String) (bids asks : List (ℚ × ℚ)),
      ((bids.map Prod.snd).sum + (asks.map Prod.snd).sum = 0 →
        (analyze_order_book_imbalance sym bids asks).bid_percentage = 50 ∧
        (analyze_order_book_imbalance sym bids asks).ask_percentage = 50 ∧
        (analyze_order_book_imbalance sym bids asks).imbalance = 0) ∧
      ((∀ q ∈ bids.map Prod.snd, 0 ≤ q) →
        (∀ q ∈ asks.map Prod.snd, 0 ≤ q) →
        -100 ≤ (analyze_order_book_imbalance sym bids asks).imbalance ∧
          (analyze_order_book_imbalance sym bids asks).imbalance ≤ 100) ∧
      ((analyze_order_book_imbalance sym bids asks).imbalance > 20 →
        (analyze_order_book_imbalance sym bids asks).pressure =
          Pressure.strongBuyPressure) ∧
      (10 < (analyze_order_book_imbalance sym bids asks).imbalance →
        (analyze_order_book_imbalance sym bids asks).imbalance ≤ 20 →
        (analyze_order_book_imbalance sym bids asks).pressure =
          Pressure.buyPressure) ∧
      ((analyze_order_book_imbalance sym bids asks).imbalance < -20 →
        (analyze_order_book_imbalance sym bids asks).pressure =
          Pressure.strongSellPressure) ∧
      (-20 ≤ (analyze_order_book_imbalance sym bids asks).imbalance →
        (analyze_order_book_imbalance sym bids asks).imbalance < -10 →
        (analyze_order_book_imbalance sym bids asks).pressure =
          Pressure.sellPressure) ∧
      (-10 ≤ (analyze_order_book_imbalance sym bids asks).imbalance →
        (analyze_order_book_imbalance sym bids asks).imbalance ≤ 10 →
        (analyze_order_book_imbalance sym bids asks).pressure =
          Pressure.balanced) := by
  intro sym bids asks
  refine ⟨?_, ?_, ?_, ?_, ?_, ?_, ?_⟩
  · intro h
    have hng : ¬ ((bids.map Prod.snd).sum + (asks.map Prod.snd).sum > 0) := by
      rw [h]
      exact lt_irrefl 0
    simp only [analyze_order_book_imbalance, if_neg hng]
    norm_num
  · intro hb ha
    have hsum := imbalance_percentage_sum sym bids asks
    have hdiff := imbalance_eq_diff sym bids asks
    have hbp := bid_percentage_bounds sym bids asks hb ha
    exact ⟨by linarith [hbp.1, hbp.2], by linarith [hbp.1, hbp.2]⟩
  all_goals
    intros
    rw [pressure_eq sym bids asks]
    split_ifs <;> first | rfl | (exfalso; linarith)

/-- C7 witness: the theorem evaluated on an empty book and on a
30-vs-10-volume book, whose imbalance 50 triggers the strong-buy label. -/
theorem order_book_imbalance_spec_witness :
    ((analyze_order_book_imbalance "BTC" [] []).bid_percentage = 50 ∧
      (analyze_order_book_imbalance "BTC" [] []).ask_percentage = 50 ∧
      (analyze_order_book_imbalance "BTC" [] []).imbalance = 0) ∧
    (-100 ≤ (analyze_order_book_imbalance "BTC"
        [((1 : ℚ), (30 : ℚ))] [(1, 10)]).imbalance ∧
      (analyze_order_book_imbalance "BTC"
        [((1 : ℚ), (30 : ℚ))] [(1, 10)]).imbalance ≤ 100) ∧
    (analyze_order_book_imbalance "BTC"
        [((1 : ℚ), (30 : ℚ))] [(1, 10)]).pressure =
      Pressure.strongBuyPressure := by
  refine
    ⟨(order_book_imbalance_spec "BTC" [] []).1 (by norm_num),
      (order_book_imbalance_spec "BTC" [(1, 30)] [(1, 10)]).2.1
        (by norm_num) (by norm_num),
      (order_book_imbalance_spec "BTC" [(1, 30)] [(1, 10)]).2.2.1 ?_⟩
  norm_num [analyze_order_book_imbalance]

/-- Selection predicate describing which trades the accumulation loop of
`analyze_fund_flow` routes to a given (class, window, side) cell: the
trade lies in the window, has the given class, and has the given side. -/
def flowSelect (now : ℚ) (c : TraderClass) (p : Period) (sd : Side)
    (t : Trade) : Bool :=
  inWindow now t p && (tradeClass t = c) && (t.side = sd)

/-- Helper: the accumulation loop of `analyze_fund_flow`, started from any
accumulator, adds to each (class, window) cell exactly the summed values
of the trades selected for it, buys into the first component and sells
into the second. -/
lemma flow_foldl_eq (now : ℚ) :
    ∀ (l : List Trade) (acc : TraderClass → Period → ℚ × ℚ)
      (c : TraderClass) (p : Period),
      (l.foldl (flowStep now) acc) c p =
        ((acc c p).1 +
            ((l.filter (flowSelect now c p Side.buy)).map Trade.value).sum,
          (acc c p).2 +
            ((l.filter (flowSelect now c p Side.sell)).map Trade.value).sum) := by
  intro l
  induction l with
  | nil =>
    intro acc c p
    simp
  | cons t ts ih =>
    intro acc c p
    rw [List.foldl_cons, ih]
    by_cases hw : inWindow now t p = true
    · by_cases hc : tradeClass t = c
      · cases hs : t.side
        · simp only [flowStep, flowSelect, hw, hc, hs, List.filter_cons]
          simp [hw, hc, hs]
          ring
        · simp only [flowStep, flowSelect, hw, hc, hs, List.filter_cons]
          simp [hw, hc, hs]
          ring
      · simp only [flowStep, flowSelect, List.filter_cons]
        simp [hw, hc]
    · simp only [flowStep, flowSelect, List.filter_cons]
      simp [hw]

/-- C4: in every FlowReport each (class, window) cell's inflow is the
summed value of the trades in that window, of that class, with buy side,
its outflow the same with sell side, and net flow = inflow − outflow;
selection for a window is exactly "window start ≤ trade timestamp"
(windows are cumulative trailing ranges, so membership is monotone in the
window length), the class test is value ≥ 100000, and the sell selection
is exactly "not buy". -/
theorem fund_flow_accumulation_spec :
    ∀ (sym : String) (price now : ℚ) (trades : List Trade)
      (c : TraderClass) (p : Period),
      ((analyze_fund_flow sym price now trades).flows c p).inflow =
        ((trades.filter (flowSelect now c p Side.buy)).map Trade.value).sum ∧
      ((analyze_fund_flow sym price now trades).flows c p).outflow =
        ((trades.filter (flowSelect now c p Side.sell)).map Trade.value).sum ∧
      ((analyze_fund_flow sym price now trades).flows c p).net_flow =
        ((analyze_fund_flow sym price now trades).flows c p).inflow -
          ((analyze_fund_flow sym price now trades).flows c p).outflow ∧
      (∀ t : Trade, flowSelect now c p Side.buy t = true ↔
        (now - p.seconds ≤ tradeTimeSec t ∧ tradeClass t = c ∧
          t.side = Side.buy)) ∧
      (∀ t : Trade, flowSelect now c p Side.sell t = true ↔
        (now - p.seconds ≤ tradeTimeSec t ∧ tradeClass t = c ∧
          ¬ t.side = Side.buy)) ∧
      (∀ t : Trade, tradeClass t = TraderClass.institutional ↔
        t.value ≥ LARGE_ORDER_THRESHOLD) ∧
      (∀ (t : Trade) (p₁ p₂ : Period), p₁.seconds ≤ p₂.seconds →
        inWindow now t p₁ = true → inWindow now t p₂ = true) := by
  intro sym price now trades c p
  have hfold := flow_foldl_eq now trades (fun _ _ => (0, 0)) c p
  refine ⟨?_, ?_, rfl, ?_, ?_, ?_, ?_⟩
  · show (flowTotals now trades c p).1 = _
    rw [flowTotals, hfold]
    simp
  · show (flowTotals now trades c p).2 = _
    rw [flowTotals, hfold]
    simp
  · intro t
    cases ht : t.side <;>
      simp [flowSelect, inWindow, tradeTimeSec, ht, ge_iff_le, and_assoc]
  · intro t
    cases ht : t.side <;>
      simp [flowSelect, inWindow, tradeTimeSec, ht, ge_iff_le, and_assoc]
  · intro t
    by_cases h : t.value ≥ LARGE_ORDER_THRESHOLD <;> simp [tradeClass, h]
  · intro t p₁ p₂ hle hw
    simp only [inWindow, ge_iff_le, decide_eq_true_eq] at hw ⊢
    linarith

/-- C4 witness: a trade 500 seconds old lies in the 15-minute window, and
window membership propagates to the 1-hour window; on a concrete
single-trade list the institutional 15m cell holds the trade's value as
inflow with net flow equal to it. -/
theorem fund_flow_accumulation_spec_witness :
    inWindow 1000 ⟨1, 100, 2000, 200000, Side.buy, 500000⟩ Period.p1h
      = true ∧
    ((analyze_fund_flow "BTC" 100 1000
        [⟨1, 100, 2000, 200000, Side.buy, 500000⟩]).flows
        TraderClass.institutional Period.p15m).inflow = 200000 := by
  constructor
  · refine (fund_flow_accumulation_spec "BTC" 100 1000 []
      TraderClass.institutional Period.p15m).2.2.2.2.2.2
      ⟨1, 100, 2000, 200000, Side.buy, 500000⟩ Period.p15m Period.p1h
      (by norm_num [Period.seconds]) ?_
    norm_num [inWindow, tradeTimeSec, Period.seconds]
  · rw [(fund_flow_accumulation_spec "BTC" 100 1000
      [⟨1, 100, 2000, 200000, Side.buy, 500000⟩]
      TraderClass.institutional Period.p15m).1]
    norm_num [flowSelect, inWindow, tradeTimeSec, Period.seconds,
      tradeClass, LARGE_ORDER_THRESHOLD]

/-- Helper: looking up a key right after storing it finds the stored
entry. -/
lemma cacheLookup_cachePut (c : Cache) (key : String) (e : CacheEntry) :
    cacheLookup (cachePut c key e) key = some e := by
  rw [cacheLookup, cachePut, List.find?_cons_of_pos _ (by simp)]
  rfl

/-- Helper: a cache hit returns the cached quote without touching the
cache and without a network call. -/
lemma get_price_step_hit (c : Cache) (now : ℚ) (key : String)
    (fetch : Option PriceQuote) (e : CacheEntry)
    (hl : cacheLookup c key = some e)
    (h : now - e.timestamp < CACHE_EXPIRY) :
    get_price_step c now key fetch = (some e.data, c, false) := by
  rw [get_price_step.eq_def, hl]
  dsimp only
  rw [if_pos h]

/-- Helper: a cache miss with a successful fetch stores and returns the
fetched quote, flagging a network call. -/
lemma get_price_step_miss_some (c : Cache) (now : ℚ) (key : String)
    (q : PriceQuote) (hl : cacheLookup c key = none) :
    get_price_step c now key (some q) =
      (some q, cachePut c key ⟨now, q⟩, true) := by
  rw [get_price_step.eq_def, hl]

/-- Helper: a cache miss with a failed fetch raises and leaves the cache
unchanged, flagging a network call. -/
lemma get_price_step_miss_none (c : Cache) (now : ℚ) (key : String)
    (hl : cacheLookup c key = none) :
    get_price_step c now key none = (none, c, true) := by
  rw [get_price_step.eq_def, hl]

/-- Helper: a stale entry with a successful fetch is overwritten by the
fetched quote, flagging a network call. -/
lemma get_price_step_stale_some (c : Cache) (now : ℚ) (key : String)
    (q : PriceQuote) (e : CacheEntry) (hl : cacheLookup c key = some e)
    (h : ¬ now - e.timestamp < CACHE_EXPIRY) :
    get_price_step c now key (some q) =
      (some q, cachePut c key ⟨now, q⟩, true) := by
  rw [get_price_step.eq_def, hl]
  dsimp only
  rw [if_neg h]

/-- Helper: a stale entry with a failed fetch raises and leaves the stale
entry in place (no eviction), flagging a network call. -/
lemma get_price_step_stale_none (c : Cache) (now : ℚ) (key : String)
    (e : CacheEntry) (hl : cacheLookup c key = some e)
    (h : ¬ now - e.timestamp < CACHE_EXPIRY) :
    get_price_step c now key none = (none, c, true) := by
  rw [get_price_step.eq_def, hl]
  dsimp only
  rw [if_neg h]

/-- C9: `get_price` hits the cache exactly when the entry's age is
strictly below the 60-second TTL (no network call happens exactly in that
case, and the entry's quote is returned with the cache unchanged); a
stale entry is not evicted but ignored — a failed refetch leaves it in
place, a successful one overwrites it with a fresh timestamp; and a call
that issued a successful network call is followed, within the TTL, by a
second call for the same key that issues no network call and returns the
identical quote. -/
theorem price_cache_spec :
    ∀ (c : Cache) (now t2 : ℚ) (key : String) (fetch : Option PriceQuote)
      (q : PriceQuote),
      ((get_price_step c now key fetch).2.2 = false ↔
        ∃ e, cacheLookup c key = some e ∧
          now - e.timestamp < CACHE_EXPIRY) ∧
      (∀ e, cacheLookup c key = some e →
        now - e.timestamp < CACHE_EXPIRY →
        get_price_step c now key fetch = (some e.data, c, false)) ∧
      (∀ e, cacheLookup c key = some e →
        ¬ now - e.timestamp < CACHE_EXPIRY →
        get_price_step c now key (some q) =
            (some q, cachePut c key ⟨now, q⟩, true) ∧
          get_price_step c now key none = (none, c, true)) ∧
      (∀ r1 c1, get_price_step c now key (some q) = (r1, c1, true) →
        t2 - now < CACHE_EXPIRY →
        ∀ fetch2, get_price_step c1 t2 key fetch2 = (some q, c1, false)) := by
  intro c now t2 key fetch q
  refine ⟨?_, ?_, ?_, ?_⟩
  · cases hl : cacheLookup c key with
    | none =>
      cases fetch with
      | none =>
        rw [get_price_step_miss_none c now key hl]
        simp [hl]
      | some q2 =>
        rw [get_price_step_miss_some c now key q2 hl]
        simp [hl]
    | some e =>
      by_cases h : now - e.timestamp < CACHE_EXPIRY
      · rw [get_price_step_hit c now key fetch e hl h]
        exact ⟨fun _ => ⟨e, rfl, h⟩, fun _ => rfl⟩
      · have hflag : (get_price_step c now key fetch).2.2 = true := by
          cases fetch with
          | none => rw [get_price_step_stale_none c now key e hl h]
          | some q2 => rw [get_price_step_stale_some c now key q2 e hl h]
        rw [hflag]
        constructor
        · intro hx
          exact absurd hx (by simp)
        · rintro ⟨e2, he2, hc2⟩
          obtain rfl : e = e2 := by injection he2
          exact absurd hc2 h
  · intro e hl h
    exact get_price_step_hit c now key fetch e hl h
  · intro e hl h
    exact ⟨get_price_step_stale_some c now key q e hl h,
      get_price_step_stale_none c now key e hl h⟩
  · intro r1 c1 hstep ht fetch2
    have hc1 : cachePut c key ⟨now, q⟩ = c1 := by
      cases hl : cacheLookup c key with
      | none =>
        rw [get_price_step_miss_some c now key q hl] at hstep
        exact congrArg (fun z => z.2.1) hstep
      | some e =>
        by_cases h : now - e.timestamp < CACHE_EXPIRY
        · rw [get_price_step_hit c now key (some q) e hl h] at hstep
          have hfalse : (false : Bool) = true :=
            congrArg (fun z => z.2.2) hstep
          exact absurd hfalse (by simp)
        · rw [get_price_step_stale_some c now key q e hl h] at hstep
          exact congrArg (fun z => z.2.1) hstep
    subst hc1
    exact get_price_step_hit _ t2 key fetch2 ⟨now, q⟩
      (cacheLookup_cachePut c key ⟨now, q⟩) (by simpa using ht)

/-- C9 witness: a fresh cache populated at time 0 answers a second call
at time 5 for the same key from the cache, with no network call and the
identical quote. -/
theorem price_cache_spec_witness :
    get_price_step
        (cachePut [] "price_binance_BTC" ⟨0, ⟨"BTC", 1, 2, 3, 4, 5⟩⟩) 5
        "price_binance_BTC" none =
      (some ⟨"BTC", 1, 2, 3, 4, 5⟩,
        cachePut [] "price_binance_BTC" ⟨0, ⟨"BTC", 1, 2, 3, 4, 5⟩⟩,
        false) := by
  exact (price_cache_spec [] 0 5 "price_binance_BTC" none
      ⟨"BTC", 1, 2, 3, 4, 5⟩).2.2.2
    (some ⟨"BTC", 1, 2, 3, 4, 5⟩)
    (cachePut [] "price_binance_BTC" ⟨0, ⟨"BTC", 1, 2, 3, 4, 5⟩⟩)
    rfl (by norm_num [CACHE_EXPIRY]) none

/-- Helper: the list of valid results is empty exactly when every gathered
result is a failure. -/
lemma filterMap_id_eq_nil_iff (l : List (Option PriceQuote)) :
    l.filterMap id = [] ↔ ∀ r ∈ l, r = none := by
  induction l with
  | nil => simp
  | cons a ts ih => cases a <;> simp [List.filterMap_cons, ih]

/-- Helper: membership in the exchange-to-price map built by zipping the
exchange ids with the gathered results and keeping the successes. -/
lemma mem_zip_filterMap_iff :
    ∀ (exchanges : List String) (results : List (Option PriceQuote))
      (ex : String) (pr : ℚ),
      ((ex, pr) ∈ (exchanges.zip results).filterMap
          (fun p => p.2.map (fun q => (p.1, q.price)))) ↔
        ∃ (i : ℕ) (q : PriceQuote), exchanges[i]? = some ex ∧
          results[i]? = some (some q) ∧ q.price = pr := by
  intro exchanges
  induction exchanges with
  | nil =>
    intro results ex pr
    simp
  | cons x xs ih =>
    intro results ex pr
    cases results with
    | nil => simp
    | cons r rs =>
      cases r with
      | none =>
        rw [List.zip_cons_cons, List.filterMap_cons]
        simp only [Option.map_none']
        rw [ih rs ex pr]
        constructor
        · rintro ⟨i, q, h1, h2, h3⟩
          exact ⟨i + 1, q, by simpa using h1, by simpa using h2, h3⟩
        · rintro ⟨i, q, h1, h2, h3⟩
          cases i with
          | zero => simp at h2
          | succ n =>
            exact ⟨n, q, by simpa using h1, by simpa using h2, h3⟩
      | some q0 =>
        rw [List.zip_cons_cons, List.filterMap_cons]
        simp only [Option.map_some']
        rw [List.mem_cons, ih rs ex pr]
        constructor
        · rintro (heq | ⟨i, q, h1, h2, h3⟩)
          · rw [Prod.mk.injEq] at heq
            obtain ⟨h1, h2⟩ := heq
            exact ⟨0, q0, by simp [h1], by simp, h2.symm⟩
          · exact ⟨i + 1, q, by simpa using h1, by simpa using h2, h3⟩
        · rintro ⟨i, q, h1, h2, h3⟩
          cases i with
          | zero =>
            left
            simp only [List.getElem?_cons_zero, Option.some.injEq] at h1 h2
            subst h1
            subst h2
            rw [h3]
          | succ n =>
            right
            exact ⟨n, q, by simpa using h1, by simpa using h2, h3⟩

/-- C2: `get_aggregated_price` fails exactly when every per-exchange fetch
failed (individual failures are swallowed: one success suffices for a
result), and on success the returned price times the number of successes
equals the sum of the successful prices (the arithmetic mean), while the
exchange-price map contains a pair exactly when the corresponding
position holds a successful fetch of that exchange with that price. -/
theorem aggregated_price_spec :
    ∀ (sym : String) (exchanges : List String)
      (results : List (Option PriceQuote)),
      (get_aggregated_price sym exchanges results = none ↔
        ∀ r ∈ results, r = none) ∧
      ∀ a, get_aggregated_price sym exchanges results = some a →
        (results.filterMap id ≠ [] ∧
          a.price * ((results.filterMap id).length : ℚ) =
            ((results.filterMap id).map PriceQuote.price).sum ∧
          ∀ ex pr, ((ex, pr) ∈ a.exchange_prices ↔
            ∃ (i : ℕ) (q : PriceQuote), exchanges[i]? = some ex ∧
              results[i]? = some (some q) ∧ q.price = pr)) := by
  intro sym exchanges results
  constructor
  · simp only [get_aggregated_price]
    by_cases h : (results.filterMap id).isEmpty
    · rw [if_pos h]
      have hnil := (filterMap_id_eq_nil_iff results).mp
        (List.isEmpty_iff.mp h)
      exact iff_of_true rfl hnil
    · rw [if_neg h]
      have hne : ¬ ∀ r ∈ results, r = none := by
        intro hall
        exact h (List.isEmpty_iff.mpr
          ((filterMap_id_eq_nil_iff results).mpr hall))
      exact iff_of_false (by simp) hne
  · intro a ha
    simp only [get_aggregated_price] at ha
    by_cases h : (results.filterMap id).isEmpty
    · rw [if_pos h] at ha
      exact absurd ha (by simp)
    · rw [if_neg h] at ha
      have hne : results.filterMap id ≠ [] := by
        intro h0
        exact h (List.isEmpty_iff.mpr h0)
      have hlen : ((results.filterMap id).length : ℚ) ≠ 0 :=
        Nat.cast_ne_zero.mpr
          (fun hh => hne (List.length_eq_zero.mp hh))
      obtain rfl := Option.some.inj ha
      refine ⟨hne, ?_, ?_⟩
      · exact div_mul_cancel₀ _ hlen
      · intro ex pr
        exact mem_zip_filterMap_iff exchanges results ex pr

/-- C2 witness: with Binance and Bybit failing and OKX returning a quote
at price 10, the aggregation does not fail and the exchange-price map
pairs "okx" with 10. -/
theorem aggregated_price_spec_witness :
    (¬ get_aggregated_price "BTC" ["binance", "okx", "bybit"]
        [none, some ⟨"BTC", 10, 0, 0, 0, 0⟩, none] = none) ∧
    ("okx", (10 : ℚ)) ∈
      (AggregatedPrice.mk "BTC" 10 [("okx", 10)]).exchange_prices := by
  constructor
  · intro hnone
    have hall := (aggregated_price_spec "BTC" ["binance", "okx", "bybit"]
        [none, some ⟨"BTC", 10, 0, 0, 0, 0⟩, none]).1.mp hnone
    have hq := hall (some ⟨"BTC", 10, 0, 0, 0, 0⟩) (by simp)
    exact absurd hq (by simp)
  · have h := (aggregated_price_spec "BTC" ["binance", "okx", "bybit"]
        [none, some ⟨"BTC", 10, 0, 0, 0, 0⟩, none]).2
        ⟨"BTC", 10, [("okx", 10)]⟩
        (by norm_num [get_aggregated_price, List.filterMap_cons,
          List.zip_cons_cons])
    exact (h.2.2 "okx" 10).mpr ⟨1, ⟨"BTC", 10, 0, 0, 0, 0⟩, rfl, rfl, rfl⟩

end CryptoBot
